import Mathlib

/-
Verification of the chat-api backend: shallow embedding of the
session/token-revocation model (data/sessions.js, middleware/auth.js,
routes/auth.js), the message store (data/messages.js), the room store
(data/rooms.js), pagination (utils/helpers.js), the messages router
(routes/messages.js, hardened version), and the WebSocket connection
manager (websocket/index.js).

Conventions of the embedding:
- JS `Map` objects become association lists with unique keys; `Map.set`,
  `Map.get`, `Map.delete` become `setA`, `getA`, `eraseA` below.
- Times (`Date` values, ISO strings compared via `new Date(x) < new Date()`)
  become `Nat` epoch milliseconds; `lastSeen` / `lastActivity` fields, which
  no verified property reads, are omitted.
- JWT tokens are a payload plus an expiry and the key material they were
  signed with; `jwt.verify(token, secret)` succeeds iff the key matches and
  the token is unexpired, and distinguishes `TokenExpiredError`.
- Functions that both return a value and delete expired entries as a side
  effect (`getSession`, `isTokenBlacklisted`) are modelled by their returned
  value: deleting an entry that is already expired changes no later returned
  value of these functions.
-/

namespace Chat

/-- Association-list read, mirroring JS `Map.get` (keys are unique). -/
def getA {K V : Type} [DecidableEq K] : List (K × V) → K → Option V
  | [], _ => none
  | (k', v) :: t, k => if k' = k then some v else getA t k

/-- Association-list write, mirroring JS `Map.set`: overwrite in place, else append. -/
def setA {K V : Type} [DecidableEq K] : List (K × V) → K → V → List (K × V)
  | [], k, v => [(k, v)]
  | (k', v') :: t, k, v => if k' = k then (k, v) :: t else (k', v') :: setA t k v

/-- Association-list delete, mirroring JS `Map.delete`. -/
def eraseA {K V : Type} [DecidableEq K] : List (K × V) → K → List (K × V)
  | [], _ => []
  | (k', v) :: t, k => if k' = k then eraseA t k else (k', v) :: eraseA t k

/-- JWT payload signed by `generateToken` in middleware/auth.js: userId,
username, role, sessionId and jti. -/
structure Claims where
  userId : String
  username : String
  role : String
  sessionId : Option String
  jti : Option String
deriving DecidableEq

/-- A signed token: its claims, its expiry (epoch ms) and the secret it was
signed with (standing for the signature). -/
structure Token where
  claims : Claims
  exp : Nat
  sig : String
deriving DecidableEq

/-- The two `jwt.verify` failure modes middleware/auth.js distinguishes. -/
inductive JwtError where
  | expired
  | invalid
deriving DecidableEq

/-- Model of `jwt.verify(token, secret)`: signature check, then expiry check. -/
def jwtVerify (secret : String) (now : Nat) (t : Token) : Except JwtError Claims :=
  if t.sig ≠ secret then .error .invalid
  else if t.exp ≤ now then .error .expired
  else .ok t.claims

/-- A session record as created by `createSession` in data/sessions.js
(the `loginTime`/`lastActivity` bookkeeping fields are omitted; no verified
property reads them). -/
structure Session where
  sessionId : String
  userId : String
  tokenJti : String
  expiresAt : Nat
deriving DecidableEq

/-- The two stores of data/sessions.js: `activeSessions` (sessionId ↦ session)
and `tokenBlacklist` (jti ↦ entry expiry). -/
structure SessionsState where
  activeSessions : List (String × Session)
  tokenBlacklist : List (String × Nat)
deriving DecidableEq

/-- Value returned by `getSession` in data/sessions.js: an expired session is
treated as absent (the code also deletes it, which no later read observes
differently). -/
def getSession (ss : SessionsState) (now : Nat) (sid : String) : Option Session :=
  match getA ss.activeSessions sid with
  | some s => if s.expiresAt < now then none else some s
  | none => none

/-- `isValidSession` in data/sessions.js. -/
def isValidSession (ss : SessionsState) (now : Nat) (sid : String) : Bool :=
  (getSession ss now sid).isSome

/-- `isTokenBlacklisted` in data/sessions.js: a blacklist entry counts until
its recorded expiry passes (the code also deletes an expired entry, which no
later read observes differently). -/
def isTokenBlacklisted (ss : SessionsState) (now : Nat) (j : String) : Bool :=
  match getA ss.tokenBlacklist j with
  | some expiresAt => if expiresAt < now then false else true
  | none => false

/-- `blacklistToken` in data/sessions.js. -/
def blacklistToken (ss : SessionsState) (j : String) (expiresAt : Nat) : SessionsState :=
  { ss with tokenBlacklist := setA ss.tokenBlacklist j expiresAt }

/-- `deleteSession` in data/sessions.js. -/
def deleteSession (ss : SessionsState) (sid : String) : SessionsState :=
  { ss with activeSessions := eraseA ss.activeSessions sid }

/-- A user record from data/users.js (password hash, email, avatar and
timestamps omitted; no verified property reads them). -/
structure User where
  id : String
  username : String
  role : String
  status : String
deriving DecidableEq

namespace Users

/-- `findById` in data/users.js. -/
def findById (us : List User) (uid : String) : Option User :=
  us.find? (fun u => u.id = uid)

/-- `updateStatus` in data/users.js: mutate the first user with this id. -/
def updateStatus : List User → String → String → List User
  | [], _, _ => []
  | u :: t, uid, status =>
      if u.id = uid then { u with status := status } :: t
      else u :: updateStatus t uid status

end Users

/-- The guard `decoded.jti && sessions.isTokenBlacklisted(decoded.jti)`
appearing in both verification paths of middleware/auth.js. -/
def revokedGuard (ss : SessionsState) (now : Nat) (d : Claims) : Bool :=
  match d.jti with
  | some j => isTokenBlacklisted ss now j
  | none => false

/-- The guard `decoded.sessionId && !sessions.isValidSession(decoded.sessionId)`
appearing in both verification paths of middleware/auth.js. -/
def sessionDeadGuard (ss : SessionsState) (now : Nat) (d : Claims) : Bool :=
  match d.sessionId with
  | some sid => !isValidSession ss now sid
  | none => false

/-- `verifyToken` in middleware/auth.js (the WebSocket verification path):
signature/expiry, then blacklist, then session liveness; any failure gives
`none` (the catch clause maps thrown jwt errors to `null`). -/
def verifyToken (secret : String) (ss : SessionsState) (now : Nat) (t : Token) :
    Option Claims :=
  match jwtVerify secret now t with
  | .error _ => none
  | .ok d =>
      if revokedGuard ss now d then none
      else if sessionDeadGuard ss now d then none
      else some d

/-- The `Authorization` header as the four branches of `requireAuth` parse
it: absent; present but not starting with `Bearer `; `Bearer` with nothing
after the space; or `Bearer <token>`. -/
inductive AuthHeader where
  | missing
  | notBearer
  | bearerEmpty
  | bearer (t : Token)
deriving DecidableEq

/-- An HTTP error response: status code and the `error` field of the body. -/
structure HttpErr where
  status : Nat
  error : String
deriving DecidableEq

/-- The token-checking block of `requireAuth` in middleware/auth.js, run
once a bearer token has been extracted: jwt verification (expiry reported
distinctly), then the blacklist check, the session-liveness check, and the
user-existence check, each with its own 401 message. -/
def requireAuthToken (secret : String) (ss : SessionsState) (us : List User)
    (now : Nat) (t : Token) : Except HttpErr Claims :=
  match jwtVerify secret now t with
  | .error .expired => .error ⟨401, "Token expired"⟩
  | .error .invalid => .error ⟨401, "Invalid token"⟩
  | .ok d =>
      if revokedGuard ss now d then .error ⟨401, "Token has been revoked"⟩
      else if sessionDeadGuard ss now d then .error ⟨401, "Session expired"⟩
      else
        match Users.findById us d.userId with
        | none => .error ⟨401, "User not found"⟩
        | some _ => .ok d

/-- `requireAuth` in middleware/auth.js, as the verdict it reaches for a
request: either a 401 response (each check has its own message) or the
decoded claims attached as `req.user`. `updateActivity`, which only rewrites
the session's `lastActivity` field, is omitted. -/
def requireAuth (secret : String) (ss : SessionsState) (us : List User) (now : Nat)
    (h : AuthHeader) : Except HttpErr Claims :=
  match h with
  | .missing => .error ⟨401, "Authentication required"⟩
  | .notBearer => .error ⟨401, "Invalid authorization format"⟩
  | .bearerEmpty => .error ⟨401, "No token provided"⟩
  | .bearer t => requireAuthToken secret ss us now t

/-- Whether an auth verdict is a 401 rejection. -/
def isAuthFailure (r : Except HttpErr Claims) : Bool :=
  match r with
  | .error e => e.status = 401
  | .ok _ => false

/-- The `POST /auth/logout` handler in routes/auth.js, acting on the
`req.user` claims `requireAuth` attached: set the user offline, delete the
session, and blacklist the jti with an expiry 24 hours (86400000 ms) out. -/
def logout (us : List User) (ss : SessionsState) (d : Claims) (now : Nat) :
    List User × SessionsState :=
  let us1 := Users.updateStatus us d.userId "offline"
  let ss1 :=
    match d.sessionId with
    | some sid => deleteSession ss sid
    | none => ss
  let ss2 :=
    match d.jti with
    | some j => blacklistToken ss1 j (now + 86400000)
    | none => ss1
  (us1, ss2)

/-- A room record from data/rooms.js. -/
structure Room where
  id : String
  name : String
  type : String
  createdBy : String
  members : List String
deriving DecidableEq

namespace Rooms

/-- `findById` in data/rooms.js. -/
def findById (rs : List Room) (rid : String) : Option Room :=
  rs.find? (fun r => r.id = rid)

/-- `canAccess` in data/rooms.js: public rooms open to all authenticated
users, private rooms members-only, unknown rooms inaccessible. -/
def canAccess (rs : List Room) (rid uid : String) : Bool :=
  match findById rs rid with
  | none => false
  | some r => if r.type = "public" then true else r.members.contains uid

end Rooms

/-- One entry of a message's edit history (data/messages.js). -/
structure EditEntry where
  previousContent : String
  editedAt : Nat
  editedBy : String
deriving DecidableEq

/-- A message record from data/messages.js. -/
structure Msg where
  id : String
  roomId : String
  userId : String
  username : String
  content : String
  timestamp : Nat
  edited : Bool
  deleted : Bool
  editHistory : List EditEntry
  deletedAt : Option Nat := none
  deletedBy : Option String := none
deriving DecidableEq

namespace Messages

/-- Result shape of `getByRoom` in data/messages.js. -/
structure RoomPage where
  messages : List Msg
  total : Nat
deriving DecidableEq

/-- `getByRoom` in data/messages.js: filter by room, drop deleted messages
unless `includeDeleted`, report the filtered total, and slice
`[offset, offset + limit)`. -/
def getByRoom (msgs : List Msg) (rid : String) (limit offset : Nat)
    (includeDeleted : Bool) : RoomPage :=
  let roomMessages := msgs.filter (fun m => m.roomId = rid)
  let roomMessages :=
    if includeDeleted then roomMessages
    else roomMessages.filter (fun m => !m.deleted)
  ⟨(roomMessages.drop offset).take limit, roomMessages.length⟩

/-- `findById` in data/messages.js: first non-deleted message with this id,
`none` when a room id is supplied and does not match. -/
def findById (msgs : List Msg) (mid : String) (rid : Option String) : Option Msg :=
  match msgs.find? (fun m => m.id = mid && !m.deleted) with
  | none => none
  | some m =>
      match rid with
      | some r => if m.roomId = r then some m else none
      | none => some m

/-- `createMessage` in data/messages.js: build the fresh record and append. -/
def createMessage (msgs : List Msg) (id rid uid uname content : String) (now : Nat) :
    Msg × List Msg :=
  let m : Msg :=
    { id := id, roomId := rid, userId := uid, username := uname,
      content := content, timestamp := now, edited := false, deleted := false,
      editHistory := [] }
  (m, msgs ++ [m])

/-- The in-place mutation `deleteMessage` performs on the found record. -/
def markDeleted (m : Msg) (uid : String) (now : Nat) : Msg :=
  { m with deleted := true, deletedAt := some now, deletedBy := some uid }

/-- `deleteMessage` in data/messages.js: soft-delete the first non-deleted
message with this id; `false` when none is found. -/
def deleteMessage : List Msg → String → String → Nat → Bool × List Msg
  | [], _, _, _ => (false, [])
  | m :: t, mid, uid, now =>
      if m.id = mid && !m.deleted then (true, markDeleted m uid now :: t)
      else ((deleteMessage t mid uid now).1, m :: (deleteMessage t mid uid now).2)

/-- Whether `pat` is a leading segment of `l`. -/
def listStarts {α : Type} [DecidableEq α] : List α → List α → Bool
  | _, [] => true
  | [], _ :: _ => false
  | a :: as, b :: bs => if a = b then listStarts as bs else false

/-- Whether `pat` occurs as a contiguous segment of `l`. -/
def listIncludes {α : Type} [DecidableEq α] : List α → List α → Bool
  | [], pat => pat.isEmpty
  | a :: as, pat => listStarts (a :: as) pat || listIncludes as pat

/-- JS `String.prototype.includes` on the character sequences. -/
def strIncludes (hay needle : String) : Bool :=
  listIncludes hay.toList needle.toList

/-- `searchMessages` in data/messages.js: skip deleted, apply the optional
room filter, then case-insensitive substring match on the content. -/
def searchMessages (msgs : List Msg) (q : String) (rid : Option String) : List Msg :=
  msgs.filter (fun m =>
    if m.deleted then false
    else
      match rid with
      | some r => if m.roomId ≠ r then false else strIncludes m.content.toLower q.toLower
      | none => strIncludes m.content.toLower q.toLower)

end Messages

/-- `config.pagination` shape in config/index.js. -/
structure PaginationConfig where
  defaultLimit : Int
  maxLimit : Int
deriving DecidableEq

/-- The configured pagination defaults: `{ defaultLimit: 50, maxLimit: 100 }`. -/
def paginationConfig : PaginationConfig := ⟨50, 100⟩

/-- A request's pagination query after `parseInt`: `none` stands for a
missing or non-numeric (`NaN`) parameter, `some v` for the parsed integer. -/
structure PageQuery where
  limit : Option Int
  offset : Option Int
deriving DecidableEq

/-- `parsePagination` in utils/helpers.js. JS `parseInt(x) || d` falls back
to `d` when the parse gives `NaN` — and also when it gives `0`, since `0` is
falsy; then the limit is clamped to `maxLimit` from above and to `1` from
below, and a negative offset is reset to `0`. -/
def parsePagination (q : PageQuery) (cfg : PaginationConfig) : Int × Int :=
  let limit : Int :=
    match q.limit with
    | none => cfg.defaultLimit
    | some v => if v = 0 then cfg.defaultLimit else v
  let offset : Int :=
    match q.offset with
    | none => 0
    | some v => if v = 0 then 0 else v
  let limit := if limit > cfg.maxLimit then cfg.maxLimit else limit
  let limit := if limit < 1 then 1 else limit
  let offset := if offset < 0 then 0 else offset
  (limit, offset)

/-- Outcome of the `POST /messages/:roomId` handler in routes/messages.js
(hardened version): HTTP status, the created record, and — decisive for the
real-time contract — the list of `wsServer.broadcastNewMessage(roomId, …)`
calls the handler issues. The handler's source contains no such call, so the
list is empty on every path. -/
structure PostMessageResult where
  status : Nat
  created : Option Msg
  wsBroadcasts : List (String × Msg)
deriving DecidableEq

/-- The `POST /messages/:roomId` handler body in routes/messages.js
(hardened version), after `requireAuth` has attached the claims `d` and
validation has accepted `content`: 404 for an unknown room, 403 without
access, else create the message and answer 201. No call into the WebSocket
layer is made. -/
def postMessage (rs : List Room) (msgs : List Msg) (rid : String) (d : Claims)
    (content newId : String) (now : Nat) : List Msg × PostMessageResult :=
  match Rooms.findById rs rid with
  | none => (msgs, ⟨404, none, []⟩)
  | some _ =>
      if !Rooms.canAccess rs rid d.userId then (msgs, ⟨403, none, []⟩)
      else
        let r := Messages.createMessage msgs newId rid d.userId d.username content now
        (r.2, ⟨201, some r.1, []⟩)

/-- A server-pushed WebSocket event: the flat JSON object with its `type`
discriminator and the payload fields websocket/index.js attaches (the
`timestamp` fields, which carry wall-clock strings and which no verified
property reads, are omitted). -/
structure Event where
  type : String
  userId : Option String := none
  username : Option String := none
  roomId : Option String := none
  status : Option String := none
  message : Option String := none
deriving DecidableEq

/-- One outbound delivery of websocket/index.js, with its audience resolved
at emission time: `toConn` is `sendToClient`, `toUser` is `sendToUser`,
`toRoom` is one `broadcastToRoom` call with the subscriber list it iterates
(exclusions already applied), `toAll` is one `broadcast` call with the
registered users it iterates. -/
inductive Out where
  | toConn (c : Nat) (e : Event)
  | toUser (u : String) (e : Event)
  | toRoom (r : String) (recipients : List String) (e : Event)
  | toAll (recipients : List String) (e : Event)
deriving DecidableEq

/-- A pending `setTimeout` scheduled by `handleTyping`: its handle, the
(room, user) key, the `username` captured by the callback, and the delay it
was scheduled with. -/
structure LiveTimer where
  id : Nat
  roomId : String
  userId : String
  username : Option String
  delay : Nat
deriving DecidableEq

/-- The mutable maps owned by the `WebSocketServer` class: `clients`
(userId ↦ set of connections, as insertion-ordered duplicate-free lists),
`roomSubscriptions` (roomId ↦ set of userIds), `typingUsers`
(roomId ↦ (userId ↦ timeout handle)), plus the event loop's pending typing
timeouts and a fresh-handle counter. -/
structure WSState where
  clients : List (String × List Nat)
  roomSubscriptions : List (String × List String)
  typingUsers : List (String × List (String × Nat))
  liveTimers : List LiveTimer
  nextTimer : Nat
deriving DecidableEq

/-- The WebSocket server's empty initial state. -/
def WSState.initial : WSState := ⟨[], [], [], [], 0⟩

/-- The state the WebSocket layer touches: the shared user store plus the
connection manager's own maps. -/
structure Sys where
  users : List User
  ws : WSState
deriving DecidableEq

/-- The `userId`/`username` locals of `handleConnection`, closed over by the
per-connection `message` and `close` listeners. -/
structure ConnLocal where
  userId : Option String
  username : Option String
deriving DecidableEq

/-- `registerClient` in websocket/index.js: ensure the user's connection set
exists and add the connection (a `Set`, so adding is idempotent). -/
def registerClient (st : WSState) (uid : String) (c : Nat) : WSState :=
  let conns := (getA st.clients uid).getD []
  let conns := if conns.contains c then conns else conns ++ [c]
  { st with clients := setA st.clients uid conns }

/-- `unregisterClient` in websocket/index.js: drop the connection from the
user's set and delete the user's entry when the set empties. -/
def unregisterClient (st : WSState) (uid : String) (c : Nat) : WSState :=
  match getA st.clients uid with
  | none => st
  | some conns =>
      let conns := conns.erase c
      if conns.isEmpty then { st with clients := eraseA st.clients uid }
      else { st with clients := setA st.clients uid conns }

/-- `broadcastToRoom` in websocket/index.js: nothing without a subscriber
entry, else one delivery to the room's subscribers minus the excluded user. -/
def broadcastToRoom (st : WSState) (rid : String) (e : Event)
    (exclude : Option String) : List Out :=
  match getA st.roomSubscriptions rid with
  | none => []
  | some members => [.toRoom rid (members.filter (fun u => exclude ≠ some u)) e]

/-- `broadcast` in websocket/index.js: one delivery to every registered
user's connections, minus the excluded user. -/
def broadcastAll (st : WSState) (e : Event) (exclude : Option String) : List Out :=
  [.toAll ((st.clients.map (·.1)).filter (fun u => exclude ≠ some u)) e]

/-- `broadcastPresence` in websocket/index.js: silently nothing when the
user is unknown to the user store, else a global `presence_update`. -/
def broadcastPresence (sys : Sys) (uid status : String) : List Out :=
  match Users.findById sys.users uid with
  | none => []
  | some u =>
      broadcastAll sys.ws
        { type := "presence_update", userId := some uid,
          username := some u.username, status := some status } none

/-- `handleJoinRoom` in websocket/index.js: error events for an unknown room
or denied access; on success subscribe the user, confirm with `joined_room`,
and notify the other subscribers with `user_joined`. -/
def handleJoinRoom (rs : List Room) (st : WSState) (uid rid : String) :
    WSState × List Out :=
  match Rooms.findById rs rid with
  | none => (st, [.toUser uid { type := "error", message := some "Room not found" }])
  | some _ =>
      if !Rooms.canAccess rs rid uid then
        (st, [.toUser uid { type := "error", message := some "Access denied" }])
      else
        let members := (getA st.roomSubscriptions rid).getD []
        let members := if members.contains uid then members else members ++ [uid]
        let st := { st with roomSubscriptions := setA st.roomSubscriptions rid members }
        (st,
          .toUser uid { type := "joined_room", roomId := some rid } ::
            broadcastToRoom st rid
              { type := "user_joined", userId := some uid, roomId := some rid }
              (some uid))

/-- `handleLeaveRoom` in websocket/index.js: unsubscribe (no-op when
absent), confirm with `left_room`, and notify the remaining subscribers. -/
def handleLeaveRoom (st : WSState) (uid rid : String) : WSState × List Out :=
  let st :=
    match getA st.roomSubscriptions rid with
    | none => st
    | some members =>
        { st with roomSubscriptions := setA st.roomSubscriptions rid (members.erase uid) }
  (st,
    .toUser uid { type := "left_room", roomId := some rid } ::
      broadcastToRoom st rid
        { type := "user_left", userId := some uid, roomId := some rid } none)

/-- `handleTyping` in websocket/index.js: ensure the room's typing map
exists, clear any existing timeout for (room, user); when typing, schedule a
fresh auto-stop timeout for the configured delay, record its handle, and
broadcast `typing_start` excluding the typer; when not typing, broadcast
`typing_stop` excluding the typer. -/
def handleTyping (typingTimeout : Nat) (st : WSState) (uid : String)
    (uname : Option String) (rid : String) (isTyping : Bool) : WSState × List Out :=
  let roomTyping := (getA st.typingUsers rid).getD []
  let cleared :=
    match getA roomTyping uid with
    | some t => (eraseA roomTyping uid, st.liveTimers.filter (fun lt : LiveTimer => lt.id ≠ t))
    | none => (roomTyping, st.liveTimers)
  if isTyping then
    let tid := st.nextTimer
    let st :=
      { st with
        typingUsers := setA st.typingUsers rid (setA cleared.1 uid tid),
        liveTimers := cleared.2 ++ [⟨tid, rid, uid, uname, typingTimeout⟩],
        nextTimer := tid + 1 }
    (st,
      broadcastToRoom st rid
        { type := "typing_start", userId := some uid, username := uname,
          roomId := some rid } (some uid))
  else
    let st :=
      { st with typingUsers := setA st.typingUsers rid cleared.1,
                liveTimers := cleared.2 }
    (st,
      broadcastToRoom st rid
        { type := "typing_stop", userId := some uid, username := uname,
          roomId := some rid } (some uid))

/-- A scheduled typing timeout firing without having been cleared: the
callback in `handleTyping` removes the (room, user) entry and broadcasts
`typing_stop` to the room with no exclusion. A cleared handle never fires. -/
def fireTimer (st : WSState) (tid : Nat) : WSState × List Out :=
  match st.liveTimers.find? (fun lt : LiveTimer => lt.id = tid) with
  | none => (st, [])
  | some lt =>
      let roomTyping := (getA st.typingUsers lt.roomId).getD []
      let st :=
        { st with
          liveTimers := st.liveTimers.filter (fun x => x.id ≠ tid),
          typingUsers := setA st.typingUsers lt.roomId (eraseA roomTyping lt.userId) }
      (st,
        broadcastToRoom st lt.roomId
          { type := "typing_stop", userId := some lt.userId,
            username := lt.username, roomId := some lt.roomId } none)

/-- `handlePresenceUpdate` in websocket/index.js: reject a status outside
the fixed enum with an error event and no mutation; else persist the status
and broadcast the presence change globally. -/
def handlePresenceUpdate (sys : Sys) (uid status : String) : Sys × List Out :=
  if !(["online", "offline", "away", "busy"].contains status) then
    (sys, [.toUser uid { type := "error", message := some "Invalid status" }])
  else
    let sys := { sys with users := Users.updateStatus sys.users uid status }
    (sys, broadcastPresence sys uid status)

/-- One iteration of the typing-cleanup loop in `handleDisconnect`: when the
room's map (as snapshotted by the iteration) holds a timeout for the user,
clear it, remove the entry, and broadcast a `typing_stop` (without username)
to the room. -/
def clearTypingStep (uid : String) (acc : WSState × List Out)
    (entry : String × List (String × Nat)) : WSState × List Out :=
  match getA entry.2 uid with
  | none => acc
  | some t =>
      let st :=
        { acc.1 with
          liveTimers := acc.1.liveTimers.filter (fun lt => lt.id ≠ t),
          typingUsers := setA acc.1.typingUsers entry.1 (eraseA entry.2 uid) }
      (st,
        acc.2 ++
          broadcastToRoom st entry.1
            { type := "typing_stop", userId := some uid, roomId := some entry.1 }
            none)

/-- `handleDisconnect` in websocket/index.js: only when the user has no
connection left, broadcast presence offline, persist the offline status,
clear the user's typing timeouts (broadcasting a `typing_stop` per room),
and remove the user from every room subscription. -/
def handleDisconnect (sys : Sys) (uid : String) : Sys × List Out :=
  if (getA sys.ws.clients uid).isSome then (sys, [])
  else
    let outs1 := broadcastPresence sys uid "offline"
    let sys : Sys := { sys with users := Users.updateStatus sys.users uid "offline" }
    let cleaned := sys.ws.typingUsers.foldl (clearTypingStep uid) (sys.ws, [])
    let ws :=
      { cleaned.1 with
        roomSubscriptions :=
          cleaned.1.roomSubscriptions.map (fun p => (p.1, p.2.erase uid)) }
    ({ sys with ws := ws }, outs1 ++ cleaned.2)

/-- The `close` listener installed by `handleConnection`: it closes over the
handshake-scope `userId` local; only when that is non-null does it
unregister the connection and run the disconnect path. -/
def closeStep (sys : Sys) (loc : ConnLocal) (c : Nat) : Sys × List Out :=
  match loc.userId with
  | none => (sys, [])
  | some uid =>
      let sys : Sys := { sys with ws := unregisterClient sys.ws uid c }
      handleDisconnect sys uid

/-- `handleConnection` in websocket/index.js: with a query-string token,
verify it; on success register the connection, send `connected`, broadcast
presence online, and set the connection locals; on failure close the socket
(code 4001) at the handshake. Without a token the connection stays pending.
Result: system, deliveries, whether the socket was closed, connection
locals. -/
def handleConnection (secret : String) (ss : SessionsState) (now : Nat)
    (sys : Sys) (c : Nat) (queryToken : Option Token) :
    Sys × List Out × Bool × ConnLocal :=
  match queryToken with
  | none => (sys, [], false, ⟨none, none⟩)
  | some t =>
      match verifyToken secret ss now t with
      | some d =>
          let sys : Sys := { sys with ws := registerClient sys.ws d.userId c }
          (sys,
            .toConn c { type := "connected", userId := some d.userId,
                        username := some d.username } ::
              broadcastPresence sys d.userId "online",
            false, ⟨some d.userId, some d.username⟩)
      | none => (sys, [], true, ⟨none, none⟩)

/-- An incoming WebSocket application message as `handleMessage` dispatches
on it: `malformed` is a payload on which `JSON.parse` throws, `unknown` any
parsed message whose `type` is none of the handled ones. -/
inductive RawMsg where
  | malformed
  | auth (t : Token)
  | joinRoom (rid : String)
  | leaveRoom (rid : String)
  | typing (rid : String) (isTyping : Bool)
  | presence (status : String)
  | ping
  | unknown
deriving DecidableEq

/-- `handleMessage` in websocket/index.js, with `userId`/`username` the
values the message listener passed in: parse failures are answered with an
error event; an unauthenticated `auth` message is verified — success
registers the connection, replies `authenticated` and broadcasts presence
online, failure replies an error event and closes the socket (4001); any
other unauthenticated message is answered with `Authentication required`;
authenticated messages dispatch on their type, with unhandled types
answered with `Unknown message type`. Result: system, deliveries, whether
the socket was closed. -/
def handleMessage (secret : String) (ss : SessionsState) (now : Nat)
    (rs : List Room) (typingTimeout : Nat) (sys : Sys) (c : Nat)
    (userId : Option String) (username : Option String) (m : RawMsg) :
    Sys × List Out × Bool :=
  match userId, m with
  | _, .malformed =>
      (sys, [.toConn c { type := "error", message := some "Invalid message format" }], false)
  | none, .auth t =>
      match verifyToken secret ss now t with
      | some d =>
          let sys : Sys := { sys with ws := registerClient sys.ws d.userId c }
          (sys,
            .toConn c { type := "authenticated", userId := some d.userId,
                        username := some d.username } ::
              broadcastPresence sys d.userId "online",
            false)
      | none =>
          (sys, [.toConn c { type := "error", message := some "Invalid token" }], true)
  | none, _ =>
      (sys, [.toConn c { type := "error", message := some "Authentication required" }], false)
  | some uid, .joinRoom rid =>
      let r := handleJoinRoom rs sys.ws uid rid
      ({ sys with ws := r.1 }, r.2, false)
  | some uid, .leaveRoom rid =>
      let r := handleLeaveRoom sys.ws uid rid
      ({ sys with ws := r.1 }, r.2, false)
  | some uid, .typing rid isTyping =>
      let r := handleTyping typingTimeout sys.ws uid username rid isTyping
      ({ sys with ws := r.1 }, r.2, false)
  | some uid, .presence status =>
      let r := handlePresenceUpdate sys uid status
      (r.1, r.2, false)
  | some _, .ping =>
      (sys, [.toConn c { type := "pong" }], false)
  | some _, .auth _ =>
      (sys, [.toConn c { type := "error", message := some "Unknown message type" }], false)
  | some _, .unknown =>
      (sys, [.toConn c { type := "error", message := some "Unknown message type" }], false)

/-- One `message` event on a connection. The listener `handleConnection`
installed is `(data) => this.handleMessage(ws, data, userId, username)`: it
passes the current values of the handshake-scope locals, and the assignments
`handleMessage` makes to its parameters are local to the call — JS passes
these by value — so the connection locals are the same after the call. -/
def connMessageStep (secret : String) (ss : SessionsState) (now : Nat)
    (rs : List Room) (typingTimeout : Nat) (sys : Sys) (c : Nat)
    (loc : ConnLocal) (m : RawMsg) : Sys × List Out × Bool × ConnLocal :=
  let r := handleMessage secret ss now rs typingTimeout sys c loc.userId loc.username m
  (r.1, r.2.1, r.2.2, loc)

/-- Whether a delivery is one global presence-offline broadcast. -/
def isOfflineBroadcast : Out → Bool
  | .toAll _ e => e.type = "presence_update" && e.status = some "offline"
  | _ => false

/-- Number of global presence-offline broadcasts among some deliveries. -/
def countOffline (outs : List Out) : Nat :=
  (outs.filter isOfflineBroadcast).length

/-- The pending typing timeouts for a (room, user) key. -/
def keyTimers (st : WSState) (rid uid : String) : List Nat :=
  (st.liveTimers.filter (fun lt : LiveTimer => lt.roomId = rid && lt.userId = uid)).map (·.id)

/-- The timeout handle `typingUsers` records for a (room, user) key. -/
def typingEntry (st : WSState) (rid uid : String) : Option Nat :=
  getA ((getA st.typingUsers rid).getD []) uid

/-- The configured JWT secret (config/index.js default). -/
def secretDemo : String := "chat-secret-2024"

/-- Claims of a token issued to the seeded admin user. -/
def aliceClaims : Claims := ⟨"user1", "alice", "admin", some "sess1", some "jti1"⟩

/-- A token for alice, signed with the configured secret, expiring at 1000. -/
def aliceToken : Token := ⟨aliceClaims, 1000, secretDemo⟩

/-- A forged token: same claims, wrong key material. -/
def badToken : Token := ⟨aliceClaims, 1000, "wrong-secret"⟩

/-- The session record backing alice's token. -/
def sessDemo : Session := ⟨"sess1", "user1", "jti1", 100000⟩

/-- A sessions store holding alice's live session and an empty blacklist. -/
def ssDemo : SessionsState := ⟨[("sess1", sessDemo)], []⟩

/-- The seeded users of data/users.js (fields the model keeps). -/
def usersDemo : List User :=
  [⟨"user1", "alice", "admin", "online"⟩,
   ⟨"user2", "bob", "user", "offline"⟩,
   ⟨"user3", "charlie", "moderator", "online"⟩]

/-- The seeded rooms of data/rooms.js. -/
def roomsDemo : List Room :=
  [⟨"general", "General Chat", "public", "admin", ["user1", "user2", "user3"]⟩,
   ⟨"private", "Private Room", "private", "user1", ["user1"]⟩]

/-- The seeded messages of data/messages.js (timestamps as small epochs). -/
def msgsDemo : List Msg :=
  [{ id := "1", roomId := "general", userId := "user1", username := "alice",
     content := "Welcome to the chat!", timestamp := 1, edited := false,
     deleted := false, editHistory := [] },
   { id := "2", roomId := "general", userId := "user2", username := "bob",
     content := "Hello everyone!", timestamp := 2, edited := false,
     deleted := false, editHistory := [] },
   { id := "3", roomId := "private", userId := "user1", username := "alice",
     content := "This is a private message", timestamp := 3, edited := false,
     deleted := false, editHistory := [] }]

/-- A fresh system: seeded users, no live connections. -/
def sysDemo0 : Sys := ⟨usersDemo, WSState.initial⟩

/-- Connection 0 opens with no query-string token: it stays pending. -/
def c1Open : Sys × List Out × Bool × ConnLocal :=
  handleConnection secretDemo ssDemo 100 sysDemo0 0 none

/-- The pending connection's first application message: a valid `auth`. -/
def c1Step1 : Sys × List Out × Bool × ConnLocal :=
  connMessageStep secretDemo ssDemo 100 roomsDemo 3000 c1Open.1 0 c1Open.2.2.2
    (.auth aliceToken)

/-- The same connection's next message: a `join_room` for the public room. -/
def c1Step2 : Sys × List Out × Bool × ConnLocal :=
  connMessageStep secretDemo ssDemo 100 roomsDemo 3000 c1Step1.1 0 c1Step1.2.2.2
    (.joinRoom "general")

/-- A successful authenticated `POST /messages/general` by alice. -/
def c2Post : List Msg × PostMessageResult :=
  postMessage roomsDemo msgsDemo "general" aliceClaims "Test message" "m9" 500

/-- A pending connection sends an `auth` message with an invalid token. -/
def c5Bad : Sys × List Out × Bool × ConnLocal :=
  connMessageStep secretDemo ssDemo 100 roomsDemo 3000 sysDemo0 0 ⟨none, none⟩
    (.auth badToken)

/-- The transport `close` event for the connection of `c1Step1` — the
message-authenticated user's only connection. -/
def c7Close : Sys × List Out :=
  closeStep c1Step1.1 c1Step1.2.2.2 0

/-- A sessions store in which alice's jti has been blacklisted (entry expiry
far in the future) while her session record still exists. -/
def ssBlacklisted : SessionsState := ⟨[("sess1", sessDemo)], [("jti1", 999999)]⟩

/-- A sessions store whose only session record expired at time 50. -/
def ssExpired : SessionsState := ⟨[("sess1", ⟨"sess1", "user1", "jti1", 50⟩)], []⟩

/-- A system with alice registered over one handshake-authenticated
connection and subscribed to the general room together with bob. -/
def sysOneConn : Sys :=
  ⟨usersDemo, ⟨[("user1", [0])], [("general", ["user1", "user2"])], [], [], 0⟩⟩

/-- A system with alice registered over two concurrent connections. -/
def sysTwoConns : Sys :=
  ⟨usersDemo, ⟨[("user1", [0, 1])], [("general", ["user1", "user2"])], [], [], 0⟩⟩

/-- A WebSocket state with subscribers to general and one pending typing
timeout for (general, alice) with handle 0. -/
def stTyping : WSState :=
  ⟨[("user1", [0]), ("user2", [1])], [("general", ["user1", "user2"])],
   [("general", [("user1", 0)])], [⟨0, "general", "user1", some "alice", 3000⟩], 1⟩

/-- Soft deletion of seeded message 2 by its author. -/
def c9Del : Bool × List Msg := Messages.deleteMessage msgsDemo "2" "user2" 900

theorem getA_setA_self {K V : Type} [DecidableEq K] (l : List (K × V)) (k : K) (v : V) :
    getA (setA l k v) k = some v := by
  induction l with
  | nil => simp [setA, getA]
  | cons p t ih =>
      obtain ⟨k', v'⟩ := p
      by_cases h : k' = k
      · simp [setA, getA, h]
      · simp [setA, getA, h, ih]

theorem getA_setA_ne {K V : Type} [DecidableEq K] (l : List (K × V)) (k k' : K) (v : V)
    (h : k' ≠ k) : getA (setA l k v) k' = getA l k' := by
  induction l with
  | nil => simp [setA, getA, Ne.symm h]
  | cons p t ih =>
      obtain ⟨k'', v'⟩ := p
      by_cases hk : k'' = k
      · subst hk
        simp [setA, getA, Ne.symm h]
      · simp [setA, getA, hk, ih]

theorem getA_eraseA_self {K V : Type} [DecidableEq K] (l : List (K × V)) (k : K) :
    getA (eraseA l k) k = none := by
  induction l with
  | nil => rfl
  | cons p t ih =>
      obtain ⟨k', v⟩ := p
      by_cases h : k' = k
      · simpa [eraseA, h] using ih
      · simp [eraseA, getA, h, ih]

theorem jwtVerify_ok {secret : String} {now : Nat} {t : Token} {c : Claims}
    (h : jwtVerify secret now t = .ok c) :
    c = t.claims ∧ t.sig = secret ∧ now < t.exp := by
  unfold jwtVerify at h
  split at h
  · cases h
  · split at h
    · cases h
    · rename_i h1 h2
      refine ⟨by cases h; rfl, Decidable.not_not.mp h1, by omega⟩

theorem verifyToken_claims {secret : String} {ss : SessionsState} {now : Nat}
    {t : Token} {d : Claims} (h : verifyToken secret ss now t = some d) :
    d = t.claims := by
  unfold verifyToken at h
  split at h
  · cases h
  · rename_i c hj
    rcases jwtVerify_ok hj with ⟨rfl, -, -⟩
    split at h
    · cases h
    · split at h
      · cases h
      · cases h; rfl

theorem verifyToken_sessionDead {secret : String} {ss : SessionsState} {now : Nat}
    {t : Token} {sid : String} (hsid : t.claims.sessionId = some sid)
    (hval : isValidSession ss now sid = false) :
    verifyToken secret ss now t = none := by
  unfold verifyToken
  split
  · rfl
  · rename_i c hj
    rcases jwtVerify_ok hj with ⟨rfl, -, -⟩
    by_cases hb : revokedGuard ss now t.claims
    · simp [hb]
    · simp [hb, sessionDeadGuard, hsid, hval]

theorem requireAuth_sessionDead {secret : String} {ss : SessionsState} {us : List User}
    {now : Nat} {t : Token} {sid : String} (hsid : t.claims.sessionId = some sid)
    (hval : isValidSession ss now sid = false) :
    isAuthFailure (requireAuth secret ss us now (.bearer t)) = true := by
  show isAuthFailure (requireAuthToken secret ss us now t) = true
  unfold requireAuthToken
  split
  · rfl
  · rfl
  · rename_i c hj
    rcases jwtVerify_ok hj with ⟨rfl, -, -⟩
    by_cases hb : revokedGuard ss now t.claims
    · simp [hb, isAuthFailure]
    · simp [hb, sessionDeadGuard, hsid, hval, isAuthFailure]

theorem logout_activeSessions (us : List User) (ss : SessionsState) (d : Claims)
    (now : Nat) (sid : String) (hsid : d.sessionId = some sid) :
    (logout us ss d now).2.activeSessions = eraseA ss.activeSessions sid := by
  unfold logout deleteSession blacklistToken
  rw [hsid]
  cases d.jti <;> rfl

/-- C3: a token accepted by a prior verification and then revoked through
the logout handler (which deletes its session and blacklists its jti) is
rejected by `verifyToken`, and by `requireAuth` with a 401, on every later
call — no cleanup sweep is needed: the session deletion alone already makes
the session-liveness check fail. -/
theorem c3_logout_revokes_token (secret : String) (us : List User)
    (ss : SessionsState) (t : Token) (d : Claims) (sid : String)
    (now0 now1 now2 : Nat)
    (hacc : verifyToken secret ss now0 t = some d)
    (hsid : d.sessionId = some sid) :
    verifyToken secret (logout us ss d now1).2 now2 t = none ∧
    isAuthFailure
      (requireAuth secret (logout us ss d now1).2 (logout us ss d now1).1 now2
        (.bearer t)) = true := by
  rcases verifyToken_claims hacc with rfl
  have hval : isValidSession (logout us ss t.claims now1).2 now2 sid = false := by
    unfold isValidSession getSession
    rw [logout_activeSessions us ss t.claims now1 sid hsid, getA_eraseA_self]
    rfl
  exact ⟨verifyToken_sessionDead hsid hval, requireAuth_sessionDead hsid hval⟩

/-- Witness for C3 at the seeded data: alice's token verifies at time 100;
after logout at time 200 the same token is rejected at time 300. -/
theorem c3_logout_revokes_token_witness :
    verifyToken secretDemo ssDemo 100 aliceToken = some aliceClaims ∧
    verifyToken secretDemo (logout usersDemo ssDemo aliceClaims 200).2 300 aliceToken
      = none :=
  ⟨by decide,
   (c3_logout_revokes_token secretDemo usersDemo ssDemo aliceToken aliceClaims
      "sess1" 100 200 300 (by decide) (by decide)).1⟩

/-- C4: a token with a valid signature, unexpired, and with an
unblacklisted jti is still rejected by both `verifyToken` and `requireAuth`
when its embedded sessionId refers to a session that is absent from the
store or whose expiry lies in the past: revocation and session liveness are
independent conjunctive checks. -/
theorem c4_session_liveness_required (secret : String) (ss : SessionsState)
    (us : List User) (now : Nat) (t : Token) (sid : String)
    (hsig : t.sig = secret) (hexp : now < t.exp)
    (hjti : ∀ j, t.claims.jti = some j → isTokenBlacklisted ss now j = false)
    (hsid : t.claims.sessionId = some sid)
    (hdead : getA ss.activeSessions sid = none ∨
      ∃ s, getA ss.activeSessions sid = some s ∧ s.expiresAt < now) :
    verifyToken secret ss now t = none ∧
    isAuthFailure (requireAuth secret ss us now (.bearer t)) = true := by
  have hval : isValidSession ss now sid = false := by
    unfold isValidSession getSession
    rcases hdead with h | ⟨s, hs, hlt⟩
    · rw [h]; rfl
    · rw [hs]; simp [hlt]
  exact ⟨verifyToken_sessionDead hsid hval, requireAuth_sessionDead hsid hval⟩

/-- Witness for C4: alice's unexpired, unblacklisted token at time 100 is
rejected once its session record has expired (at time 50). -/
theorem c4_session_liveness_required_witness :
    verifyToken secretDemo ssExpired 100 aliceToken = none ∧
    isAuthFailure (requireAuth secretDemo ssExpired usersDemo 100
      (.bearer aliceToken)) = true :=
  c4_session_liveness_required secretDemo ssExpired usersDemo 100 aliceToken
    "sess1" (by decide) (by decide)
    (by intro j hj; cases hj; decide) (by decide)
    (Or.inr ⟨⟨"sess1", "user1", "jti1", 50⟩, by decide, by decide⟩)

/-- C6 counterexample: two failed bearer-protected requests — one with the
header missing, one with a blacklisted token — both answer 401 but with
different bodies, so the response body does reveal which check failed. -/
theorem c6_counterexample_distinct_bodies :
    requireAuth secretDemo ssDemo usersDemo 100 .missing =
      .error ⟨401, "Authentication required"⟩ ∧
    requireAuth secretDemo ssBlacklisted usersDemo 100 (.bearer aliceToken) =
      .error ⟨401, "Token has been revoked"⟩ ∧
    (HttpErr.mk 401 "Authentication required" = HttpErr.mk 401 "Token has been revoked" →
      False) :=
  ⟨rfl, rfl, by decide⟩

/-- C6 amended: every authentication failure of `requireAuth` is answered
with status 401, but the body's error message identifies the failed check:
missing header, malformed header, empty token, invalid signature, expired
token, revoked token, expired session, and unknown user each have their own
message. -/
theorem c6_auth_failures_distinct_bodies :
    (∀ (secret : String) (ss : SessionsState) (us : List User) (now : Nat)
        (h : AuthHeader) (e : HttpErr),
        requireAuth secret ss us now h = .error e → e.status = 401) ∧
    (∀ (secret : String) (ss : SessionsState) (us : List User) (now : Nat),
        requireAuth secret ss us now .missing =
          .error ⟨401, "Authentication required"⟩) ∧
    (∀ (secret : String) (ss : SessionsState) (us : List User) (now : Nat),
        requireAuth secret ss us now .notBearer =
          .error ⟨401, "Invalid authorization format"⟩) ∧
    (∀ (secret : String) (ss : SessionsState) (us : List User) (now : Nat),
        requireAuth secret ss us now .bearerEmpty =
          .error ⟨401, "No token provided"⟩) ∧
    (∀ (secret : String) (ss : SessionsState) (us : List User) (now : Nat) (t : Token),
        t.sig ≠ secret →
        requireAuth secret ss us now (.bearer t) = .error ⟨401, "Invalid token"⟩) ∧
    (∀ (secret : String) (ss : SessionsState) (us : List User) (now : Nat) (t : Token),
        t.sig = secret → t.exp ≤ now →
        requireAuth secret ss us now (.bearer t) = .error ⟨401, "Token expired"⟩) ∧
    (∀ (secret : String) (ss : SessionsState) (us : List User) (now : Nat) (t : Token)
        (j : String),
        t.sig = secret → now < t.exp → t.claims.jti = some j →
        isTokenBlacklisted ss now j = true →
        requireAuth secret ss us now (.bearer t) =
          .error ⟨401, "Token has been revoked"⟩) ∧
    (∀ (secret : String) (ss : SessionsState) (us : List User) (now : Nat) (t : Token)
        (sid : String),
        t.sig = secret → now < t.exp →
        (∀ j, t.claims.jti = some j → isTokenBlacklisted ss now j = false) →
        t.claims.sessionId = some sid → isValidSession ss now sid = false →
        requireAuth secret ss us now (.bearer t) = .error ⟨401, "Session expired"⟩) ∧
    (∀ (secret : String) (ss : SessionsState) (us : List User) (now : Nat) (t : Token),
        t.sig = secret → now < t.exp →
        (∀ j, t.claims.jti = some j → isTokenBlacklisted ss now j = false) →
        (∀ sid, t.claims.sessionId = some sid → isValidSession ss now sid = true) →
        Users.findById us t.claims.userId = none →
        requireAuth secret ss us now (.bearer t) = .error ⟨401, "User not found"⟩) := by
  refine ⟨?_, fun _ _ _ _ => rfl, fun _ _ _ _ => rfl, fun _ _ _ _ => rfl,
    ?_, ?_, ?_, ?_, ?_⟩
  · intro secret ss us now h e hreq
    cases h with
    | missing => injection hreq with h'; subst h'; rfl
    | notBearer => injection hreq with h'; subst h'; rfl
    | bearerEmpty => injection hreq with h'; subst h'; rfl
    | bearer t =>
        have hreq' : requireAuthToken secret ss us now t = .error e := hreq
        unfold requireAuthToken at hreq'
        split at hreq'
        · injection hreq' with h'; subst h'; rfl
        · injection hreq' with h'; subst h'; rfl
        · split at hreq'
          · injection hreq' with h'; subst h'; rfl
          · split at hreq'
            · injection hreq' with h'; subst h'; rfl
            · split at hreq'
              · injection hreq' with h'; subst h'; rfl
              · cases hreq'
  · intro secret ss us now t h
    show requireAuthToken secret ss us now t = _
    simp [requireAuthToken, jwtVerify, h]
  · intro secret ss us now t h1 h2
    show requireAuthToken secret ss us now t = _
    simp [requireAuthToken, jwtVerify, h1, h2]
  · intro secret ss us now t j h1 h2 hj hbl
    show requireAuthToken secret ss us now t = _
    simp [requireAuthToken, jwtVerify, h1, Nat.not_le.mpr h2, revokedGuard, hj, hbl]
  · intro secret ss us now t sid h1 h2 hjti hsid hval
    have hrg : revokedGuard ss now t.claims = false := by
      unfold revokedGuard
      cases hj : t.claims.jti with
      | none => rfl
      | some j => exact hjti j hj
    show requireAuthToken secret ss us now t = _
    simp [requireAuthToken, jwtVerify, h1, Nat.not_le.mpr h2, hrg,
      sessionDeadGuard, hsid, hval]
  · intro secret ss us now t h1 h2 hjti hsess hfind
    have hrg : revokedGuard ss now t.claims = false := by
      unfold revokedGuard
      cases hj : t.claims.jti with
      | none => rfl
      | some j => exact hjti j hj
    have hsd : sessionDeadGuard ss now t.claims = false := by
      unfold sessionDeadGuard
      cases hs : t.claims.sessionId with
      | none => rfl
      | some sid => simp [hsess sid hs]
    show requireAuthToken secret ss us now t = _
    simp [requireAuthToken, jwtVerify, h1, Nat.not_le.mpr h2, hrg, hsd, hfind]

/-- Witness for the C6 amended theorem: the invalid-signature branch at a
concrete forged token. -/
theorem c6_auth_failures_distinct_bodies_witness :
    requireAuth secretDemo ssDemo usersDemo 100 (.bearer badToken) =
      .error ⟨401, "Invalid token"⟩ :=
  c6_auth_failures_distinct_bodies.2.2.2.2.1 secretDemo ssDemo usersDemo 100 badToken
    (by decide)

/-- C10 counterexample: a requested limit of 0 is below 1, yet
`parsePagination` yields the default 50, not the claimed clamp to 1 —
JS `parseInt(x) || default` treats 0 as missing. -/
theorem c10_counterexample_limit_zero :
    (0 : Int) < 1 ∧ (parsePagination ⟨some 0, none⟩ paginationConfig).1 = 50 ∧
      ((50 : Int) = 1 → False) := by
  decide

/-- C10 amended: with the configured `{defaultLimit := 50, maxLimit := 100}`
the effective values always satisfy `1 ≤ limit ≤ 100` and `0 ≤ offset`; a
limit above 100 is clamped to 100, a negative limit to 1, a missing,
non-numeric, or zero limit defaults to 50, and a missing, non-numeric, zero
or negative offset becomes 0. -/
theorem c10_pagination_bounds :
    (∀ q : PageQuery, 1 ≤ (parsePagination q paginationConfig).1 ∧
        (parsePagination q paginationConfig).1 ≤ 100 ∧
        0 ≤ (parsePagination q paginationConfig).2) ∧
    (∀ (q : PageQuery) (v : Int), q.limit = some v → 100 < v →
        (parsePagination q paginationConfig).1 = 100) ∧
    (∀ (q : PageQuery) (v : Int), q.limit = some v → v < 0 →
        (parsePagination q paginationConfig).1 = 1) ∧
    (∀ q : PageQuery, q.limit = none ∨ q.limit = some 0 →
        (parsePagination q paginationConfig).1 = 50) ∧
    (∀ q : PageQuery, (q.offset = none ∨ ∃ v : Int, v ≤ 0 ∧ q.offset = some v) →
        (parsePagination q paginationConfig).2 = 0) := by
  refine ⟨?_, ?_, ?_, ?_, ?_⟩
  · rintro ⟨lim, off⟩
    cases lim <;> cases off <;>
      simp only [parsePagination, paginationConfig] <;> split_ifs <;> omega
  · rintro ⟨lim, off⟩ v hv hgt
    cases hv
    cases off <;> simp only [parsePagination, paginationConfig] <;>
      split_ifs <;> omega
  · rintro ⟨lim, off⟩ v hv hlt
    cases hv
    cases off <;> simp only [parsePagination, paginationConfig] <;>
      split_ifs <;> omega
  · rintro ⟨lim, off⟩ (hv | hv) <;> cases hv <;>
      cases off <;> simp only [parsePagination, paginationConfig] <;>
        split_ifs <;> omega
  · rintro ⟨lim, off⟩ (hv | ⟨v, hv0, hv⟩) <;> cases hv <;>
      cases lim <;> simp only [parsePagination, paginationConfig] <;>
        split_ifs <;> omega

/-- Witness for the C10 amended theorem: limit 250 clamps to 100 and offset
-3 resets to 0. -/
theorem c10_pagination_bounds_witness :
    (parsePagination ⟨some 250, some (-3)⟩ paginationConfig).1 = 100 ∧
    (parsePagination ⟨some 250, some (-3)⟩ paginationConfig).2 = 0 :=
  ⟨c10_pagination_bounds.2.1 ⟨some 250, some (-3)⟩ 250 rfl (by norm_num),
   c10_pagination_bounds.2.2.2.2 ⟨some 250, some (-3)⟩
     (Or.inr ⟨-3, by norm_num, rfl⟩)⟩

/-- C2: the `POST /messages/:roomId` handler never calls the connection
manager's `broadcastNewMessage` — the list of such calls it issues is empty
on every path — even though a concrete successful request (alice posting to
the public room) answers 201 with the created message. The code contradicts
the contract (and the `broadcastNewMessage` doc comment "called from HTTP
route"): no `new_message` fan-out follows a successful message creation. -/
theorem c2_post_message_no_broadcast :
    (∀ (rs : List Room) (msgs : List Msg) (rid : String) (d : Claims)
        (content newId : String) (now : Nat),
        (postMessage rs msgs rid d content newId now).2.wsBroadcasts = []) ∧
    c2Post.2.status = 201 ∧ c2Post.2.created.isSome = true ∧
    c2Post.2.wsBroadcasts = [] := by
  refine ⟨?_, by decide, by decide, by decide⟩
  intro rs msgs rid d content newId now
  unfold postMessage
  split
  · rfl
  · split
    · rfl
    · rfl

/-- C1: the code's own two-step trace: a pending connection sends a valid
in-band `auth` message — the server replies `authenticated`, registers the
connection and broadcasts presence — yet the connection locals still hold no
user (JS passes them by value into `handleMessage`), so the very next
`join_room` message is rejected with `Authentication required` instead of
being dispatched to the join handler. -/
theorem c1_auth_message_not_persisted :
    c1Step1.2.1 =
      [.toConn 0 { type := "authenticated", userId := some "user1",
                   username := some "alice" },
       .toAll ["user1"] { type := "presence_update", userId := some "user1",
                          username := some "alice", status := some "online" }] ∧
    getA c1Step1.1.ws.clients "user1" = some [0] ∧
    c1Step1.2.2.2.userId = none ∧
    c1Step2.2.1 = [.toConn 0 { type := "error",
                               message := some "Authentication required" }] ∧
    c1Step2.2.2.1 = false := by
  decide

/-- C5 counterexample: an invalid token in an application-level `auth`
message — not a handshake-time failure and not a heartbeat timeout — makes
the server close the connection (after an error event), refuting that all
such violations leave the connection open. -/
theorem c5_counterexample_auth_message_closes :
    c5Bad.2.2.1 = true ∧
    c5Bad.2.1 = [.toConn 0 { type := "error", message := some "Invalid token" }] := by
  decide

/-- C7 counterexample: alice authenticates her only connection via the
in-band `auth` message (she is registered, `clients` maps her to that one
connection), yet the transport close of this last connection triggers zero
presence-offline broadcasts and no cleanup, because the close listener closes
over the still-null handshake locals. -/
theorem c7_counterexample_no_offline_broadcast :
    getA c1Step1.1.ws.clients "user1" = some [0] ∧
    Users.findById c1Step1.1.users "user1" =
      some ⟨"user1", "alice", "admin", "online"⟩ ∧
    countOffline c7Close.2 = 0 ∧
    c7Close.1.ws.clients = c1Step1.1.ws.clients := by
  decide

/-- C5 amended: the message-handling path closes the connection exactly
when a still-unauthenticated connection presents an `auth` message whose
token fails verification; the handshake path closes exactly when a
query-string token fails verification; and each of the listed protocol
violations — unparsable message, message before authentication, unknown
type, room-not-found, access-denied, invalid status — is answered with a
`type: "error"` event while the connection stays open. -/
theorem c5_close_only_for_invalid_auth_token :
    (∀ (secret : String) (ss : SessionsState) (now : Nat) (rs : List Room)
        (tt : Nat) (sys : Sys) (c : Nat) (userId username : Option String)
        (m : RawMsg),
        (handleMessage secret ss now rs tt sys c userId username m).2.2 = true ↔
          userId = none ∧ ∃ t, m = .auth t ∧ verifyToken secret ss now t = none) ∧
    (∀ (secret : String) (ss : SessionsState) (now : Nat) (sys : Sys) (c : Nat)
        (q : Option Token),
        (handleConnection secret ss now sys c q).2.2.1 = true ↔
          ∃ t, q = some t ∧ verifyToken secret ss now t = none) ∧
    (∀ (secret : String) (ss : SessionsState) (now : Nat) (rs : List Room)
        (tt : Nat) (sys : Sys) (c : Nat) (userId username : Option String),
        handleMessage secret ss now rs tt sys c userId username .malformed =
          (sys, [.toConn c { type := "error", message := some "Invalid message format" }],
            false)) ∧
    (∀ (secret : String) (ss : SessionsState) (now : Nat) (rs : List Room)
        (tt : Nat) (sys : Sys) (c : Nat) (username : Option String) (m : RawMsg),
        m ≠ .malformed → (∀ t, m ≠ .auth t) →
        handleMessage secret ss now rs tt sys c none username m =
          (sys, [.toConn c { type := "error", message := some "Authentication required" }],
            false)) ∧
    (∀ (secret : String) (ss : SessionsState) (now : Nat) (rs : List Room)
        (tt : Nat) (sys : Sys) (c : Nat) (uid : String) (username : Option String),
        handleMessage secret ss now rs tt sys c (some uid) username .unknown =
          (sys, [.toConn c { type := "error", message := some "Unknown message type" }],
            false)) ∧
    (∀ (secret : String) (ss : SessionsState) (now : Nat) (rs : List Room)
        (tt : Nat) (sys : Sys) (c : Nat) (uid : String) (username : Option String)
        (rid : String),
        Rooms.findById rs rid = none →
        handleMessage secret ss now rs tt sys c (some uid) username (.joinRoom rid) =
          (sys, [.toUser uid { type := "error", message := some "Room not found" }],
            false)) ∧
    (∀ (secret : String) (ss : SessionsState) (now : Nat) (rs : List Room)
        (tt : Nat) (sys : Sys) (c : Nat) (uid : String) (username : Option String)
        (rid : String) (r : Room),
        Rooms.findById rs rid = some r → Rooms.canAccess rs rid uid = false →
        handleMessage secret ss now rs tt sys c (some uid) username (.joinRoom rid) =
          (sys, [.toUser uid { type := "error", message := some "Access denied" }],
            false)) ∧
    (∀ (secret : String) (ss : SessionsState) (now : Nat) (rs : List Room)
        (tt : Nat) (sys : Sys) (c : Nat) (uid : String) (username : Option String)
        (status : String),
        (["online", "offline", "away", "busy"] : List String).contains status = false →
        handleMessage secret ss now rs tt sys c (some uid) username (.presence status) =
          (sys, [.toUser uid { type := "error", message := some "Invalid status" }],
            false)) := by
  refine ⟨?_, ?_, ?_, ?_, ?_, ?_, ?_, ?_⟩
  · intro secret ss now rs tt sys c userId username m
    cases userId with
    | none =>
        cases m with
        | auth t =>
            cases hv : verifyToken secret ss now t with
            | some d => simp [handleMessage, hv]
            | none => simp [handleMessage, hv]
        | malformed => simp [handleMessage]
        | joinRoom rid => simp [handleMessage]
        | leaveRoom rid => simp [handleMessage]
        | typing rid b => simp [handleMessage]
        | presence s => simp [handleMessage]
        | ping => simp [handleMessage]
        | unknown => simp [handleMessage]
    | some uid =>
        cases m <;> simp [handleMessage]
  · intro secret ss now sys c q
    cases q with
    | none => simp [handleConnection]
    | some t =>
        cases hv : verifyToken secret ss now t with
        | some d => simp [handleConnection, hv]
        | none => simp [handleConnection, hv]
  · intro secret ss now rs tt sys c userId username
    cases userId <;> rfl
  · intro secret ss now rs tt sys c username m hm ha
    cases m with
    | malformed => exact absurd rfl hm
    | auth t => exact absurd rfl (ha t)
    | joinRoom rid => rfl
    | leaveRoom rid => rfl
    | typing rid b => rfl
    | presence s => rfl
    | ping => rfl
    | unknown => rfl
  · intro secret ss now rs tt sys c uid username
    rfl
  · intro secret ss now rs tt sys c uid username rid hfind
    simp [handleMessage, handleJoinRoom, hfind]
  · intro secret ss now rs tt sys c uid username rid r hfind hacc
    simp [handleMessage, handleJoinRoom, hfind, hacc]
  · intro secret ss now rs tt sys c uid username status hst
    simp only [handleMessage]
    unfold handlePresenceUpdate
    rw [hst]
    rfl

/-- Witness for the C5 amended theorem: joining an unknown room yields an
error event with the connection left open. -/
theorem c5_close_only_for_invalid_auth_token_witness :
    handleMessage secretDemo ssDemo 100 roomsDemo 3000 sysOneConn 0
      (some "user1") (some "alice") (.joinRoom "nope") =
      (sysOneConn, [.toUser "user1" { type := "error", message := some "Room not found" }],
        false) :=
  c5_close_only_for_invalid_auth_token.2.2.2.2.2.1 secretDemo ssDemo 100 roomsDemo
    3000 sysOneConn 0 "user1" (some "alice") "nope" (by decide)

theorem deleteMessage_split (msgs : List Msg) (mid uid : String) (now : Nat)
    (msgs' : List Msg)
    (h : Messages.deleteMessage msgs mid uid now = (true, msgs')) :
    ∃ pre m0 suf, msgs = pre ++ m0 :: suf ∧ m0.id = mid ∧ m0.deleted = false ∧
      msgs' = pre ++ Messages.markDeleted m0 uid now :: suf := by
  induction msgs generalizing msgs' with
  | nil => simp [Messages.deleteMessage] at h
  | cons m t ih =>
      rw [Messages.deleteMessage] at h
      by_cases hid : m.id = mid
      · by_cases hdel : m.deleted = true
        · rw [if_neg (by simp [hid, hdel])] at h
          rcases hdt : Messages.deleteMessage t mid uid now with ⟨b, t'⟩
          rw [hdt] at h
          have hb : b = true := congrArg Prod.fst h
          have ht' : m :: t' = msgs' := congrArg Prod.snd h
          subst hb
          obtain ⟨pre, m0, suf, h1, h2, h3, h4⟩ := ih t' hdt
          exact ⟨m :: pre, m0, suf, by simp [h1], h2, h3, by simp [← ht', h4]⟩
        · have hdel' : m.deleted = false := by
            cases hmd : m.deleted
            · rfl
            · exact absurd hmd hdel
          rw [if_pos (by simp [hid, hdel'])] at h
          have hmsgs' : Messages.markDeleted m uid now :: t = msgs' :=
            congrArg Prod.snd h
          exact ⟨[], m, t, rfl, hid, hdel', hmsgs'.symm⟩
      · rw [if_neg (by simp [hid])] at h
        rcases hdt : Messages.deleteMessage t mid uid now with ⟨b, t'⟩
        rw [hdt] at h
        have hb : b = true := congrArg Prod.fst h
        have ht' : m :: t' = msgs' := congrArg Prod.snd h
        subst hb
        obtain ⟨pre, m0, suf, h1, h2, h3, h4⟩ := ih t' hdt
        exact ⟨m :: pre, m0, suf, by simp [h1], h2, h3, by simp [← ht', h4]⟩

/-- C9: when `deleteMessage` succeeds on a store with unique ids, the record
is retained — marked `deleted` with `deletedBy`/`deletedAt` — and the
message id no longer appears in any default room listing, in any search
result, or in any `findById` lookup. -/
theorem c9_soft_delete_hides_message (msgs : List Msg) (mid uid : String)
    (now : Nat) (msgs' : List Msg)
    (hnd : (msgs.map Msg.id).Nodup)
    (h : Messages.deleteMessage msgs mid uid now = (true, msgs')) :
    (∃ m0, m0 ∈ msgs ∧ m0.id = mid ∧ m0.deleted = false ∧
        Messages.markDeleted m0 uid now ∈ msgs') ∧
    (∀ m ∈ msgs', m.id = mid →
        m.deleted = true ∧ m.deletedBy = some uid ∧ m.deletedAt = some now) ∧
    (∀ (rid : String) (limit offset : Nat),
        ∀ m ∈ (Messages.getByRoom msgs' rid limit offset false).messages,
          m.id ≠ mid) ∧
    (∀ (q : String) (rid : Option String),
        ∀ m ∈ Messages.searchMessages msgs' q rid, m.id ≠ mid) ∧
    (∀ rid : Option String, Messages.findById msgs' mid rid = none) := by
  obtain ⟨pre, m0, suf, hsplit, hid, hdel, hres⟩ :=
    deleteMessage_split msgs mid uid now msgs' h
  subst hsplit
  subst hres
  have hmapnd := hnd
  rw [List.map_append, List.map_cons, List.nodup_append] at hmapnd
  obtain ⟨-, hndcons, hdisj⟩ := hmapnd
  have hpre : ∀ x ∈ pre, x.id ≠ mid := by
    intro x hx hxid
    exact hdisj (List.mem_map_of_mem Msg.id hx) (by rw [hxid, ← hid]; exact List.mem_cons_self _ _)
  have hsuf : ∀ x ∈ suf, x.id ≠ mid := by
    intro x hx hxid
    rw [List.nodup_cons] at hndcons
    apply hndcons.1
    rw [hid, ← hxid]
    exact List.mem_map_of_mem Msg.id hx
  have honly : ∀ m ∈ pre ++ Messages.markDeleted m0 uid now :: suf, m.id = mid →
      m = Messages.markDeleted m0 uid now := by
    intro m hm hmid
    rcases List.mem_append.mp hm with hp | hq
    · exact absurd hmid (hpre m hp)
    · rcases List.mem_cons.mp hq with rfl | hs
      · rfl
      · exact absurd hmid (hsuf m hs)
  have hdeleted : ∀ m ∈ pre ++ Messages.markDeleted m0 uid now :: suf, m.id = mid →
      m.deleted = true ∧ m.deletedBy = some uid ∧ m.deletedAt = some now := by
    intro m hm hmid
    rw [honly m hm hmid]
    exact ⟨rfl, rfl, rfl⟩
  refine ⟨⟨m0, by simp, hid, hdel, by simp⟩, hdeleted, ?_, ?_, ?_⟩
  · intro rid limit offset m hm hmid
    have hm1 : m ∈ ((pre ++ Messages.markDeleted m0 uid now :: suf).filter
        (fun x => x.roomId = rid)).filter (fun x => !x.deleted) := by
      have := List.take_subset limit _ hm
      exact List.drop_subset offset _ this
    rw [List.mem_filter] at hm1
    have hm2 := List.mem_filter.mp hm1.1
    have : m.deleted = true := (hdeleted m hm2.1 hmid).1
    rw [this] at hm1
    simp at hm1
  · intro q rid m hm hmid
    rw [Messages.searchMessages, List.mem_filter] at hm
    have : m.deleted = true := (hdeleted m hm.1 hmid).1
    rw [this] at hm
    simp at hm
  · intro rid
    have hfind : (pre ++ Messages.markDeleted m0 uid now :: suf).find?
        (fun m => m.id = mid && !m.deleted) = none := by
      rw [List.find?_eq_none]
      intro x hx hpx
      simp only [Bool.and_eq_true, decide_eq_true_eq, Bool.not_eq_true'] at hpx
      have := (hdeleted x hx hpx.1).1
      rw [this] at hpx
      exact absurd hpx.2 (by simp)
    rw [Messages.findById, hfind]

/-- Witness for C9: deleting seeded message 2 succeeds, and it then fails
to resolve through `findById`. -/
theorem c9_soft_delete_hides_message_witness :
    Messages.deleteMessage msgsDemo "2" "user2" 900 = (true, c9Del.2) ∧
    Messages.findById c9Del.2 "2" none = none :=
  ⟨by decide,
   (c9_soft_delete_hides_message msgsDemo "2" "user2" 900 c9Del.2 (by decide)
      (by decide)).2.2.2.2 none⟩

theorem countOffline_append (a b : List Out) :
    countOffline (a ++ b) = countOffline a + countOffline b := by
  simp [countOffline, List.filter_append]

theorem countOffline_broadcastToRoom (st : WSState) (rid : String) (e : Event)
    (ex : Option String) : countOffline (broadcastToRoom st rid e ex) = 0 := by
  unfold broadcastToRoom
  cases getA st.roomSubscriptions rid <;> rfl

theorem clearTypingStep_subs (uid : String) (acc : WSState × List Out)
    (e : String × List (String × Nat)) :
    (clearTypingStep uid acc e).1.roomSubscriptions = acc.1.roomSubscriptions := by
  unfold clearTypingStep
  cases getA e.2 uid <;> rfl

theorem clearTypingStep_countOffline (uid : String) (acc : WSState × List Out)
    (e : String × List (String × Nat)) :
    countOffline (clearTypingStep uid acc e).2 = countOffline acc.2 := by
  unfold clearTypingStep
  cases getA e.2 uid with
  | none => rfl
  | some t => simp [countOffline_append, countOffline_broadcastToRoom]

theorem clearTypingStep_liveTimers (uid : String) (acc : WSState × List Out)
    (e : String × List (String × Nat)) :
    (getA e.2 uid = none ∧ (clearTypingStep uid acc e).1.liveTimers = acc.1.liveTimers) ∨
    (∃ t, getA e.2 uid = some t ∧
      (clearTypingStep uid acc e).1.liveTimers =
        acc.1.liveTimers.filter (fun lt : LiveTimer => lt.id ≠ t)) := by
  unfold clearTypingStep
  cases hg : getA e.2 uid with
  | none => exact Or.inl ⟨rfl, rfl⟩
  | some t => exact Or.inr ⟨t, rfl, rfl⟩

theorem clearTyping_fold_pres (uid : String) (L : List (String × List (String × Nat))) :
    ∀ acc : WSState × List Out,
    countOffline (L.foldl (clearTypingStep uid) acc).2 = countOffline acc.2 ∧
    (L.foldl (clearTypingStep uid) acc).1.roomSubscriptions = acc.1.roomSubscriptions := by
  induction L with
  | nil => intro acc; exact ⟨rfl, rfl⟩
  | cons e L ih =>
      intro acc
      rw [List.foldl_cons]
      exact ⟨(ih _).1.trans (clearTypingStep_countOffline uid acc e),
        (ih _).2.trans (clearTypingStep_subs uid acc e)⟩

theorem clearTyping_clears (uid : String) (L : List (String × List (String × Nat))) :
    ∀ acc : WSState × List Out,
    (∀ lt ∈ acc.1.liveTimers, lt.userId = uid → ∃ p ∈ L, getA p.2 uid = some lt.id) →
    ∀ lt ∈ (L.foldl (clearTypingStep uid) acc).1.liveTimers, lt.userId ≠ uid := by
  induction L with
  | nil =>
      intro acc h lt hmem hequ
      obtain ⟨p, hp, -⟩ := h lt hmem hequ
      exact absurd hp (List.not_mem_nil p)
  | cons e L ih =>
      intro acc h
      rw [List.foldl_cons]
      apply ih
      intro lt hmem hequ
      rcases clearTypingStep_liveTimers uid acc e with ⟨hg, heq⟩ | ⟨t, hg, heq⟩
      · rw [heq] at hmem
        obtain ⟨p, hp, hgp⟩ := h lt hmem hequ
        rcases List.mem_cons.mp hp with rfl | hp'
        · rw [hg] at hgp; cases hgp
        · exact ⟨p, hp', hgp⟩
      · rw [heq] at hmem
        have hmem' := List.mem_filter.mp hmem
        obtain ⟨p, hp, hgp⟩ := h lt hmem'.1 hequ
        rcases List.mem_cons.mp hp with rfl | hp'
        · rw [hg] at hgp
          injection hgp with h'
          exact absurd h'.symm (by simpa using hmem'.2)
        · exact ⟨p, hp', hgp⟩

theorem unregisterClient_fields (st : WSState) (uid : String) (c : Nat) :
    (unregisterClient st uid c).roomSubscriptions = st.roomSubscriptions ∧
    (unregisterClient st uid c).typingUsers = st.typingUsers ∧
    (unregisterClient st uid c).liveTimers = st.liveTimers := by
  unfold unregisterClient
  cases getA st.clients uid with
  | none => exact ⟨rfl, rfl, rfl⟩
  | some conns =>
      by_cases h : (conns.erase c).isEmpty <;> simp [h]

theorem handleDisconnect_conn (sys : Sys) (uid : String)
    (hsome : (getA sys.ws.clients uid).isSome = true) :
    handleDisconnect sys uid = (sys, []) := by
  unfold handleDisconnect
  rw [hsome]
  rfl

theorem handleDisconnect_last (sys : Sys) (uid : String)
    (hnone : getA sys.ws.clients uid = none) :
    handleDisconnect sys uid =
      (let outs1 := broadcastPresence sys uid "offline"
       let sys2 : Sys := { sys with users := Users.updateStatus sys.users uid "offline" }
       let cleaned := sys2.ws.typingUsers.foldl (clearTypingStep uid) (sys2.ws, [])
       ({ sys2 with ws :=
            { cleaned.1 with roomSubscriptions :=
                cleaned.1.roomSubscriptions.map (fun p => (p.1, p.2.erase uid)) } },
        outs1 ++ cleaned.2)) := by
  unfold handleDisconnect
  rw [hnone]
  rfl

/-- C7 amended: for a connection whose close listener observed its user —
the handshake-authenticated case, where `handleConnection` set the locals —
closing the user's last remaining connection triggers exactly one global
presence-offline broadcast and clears the user's room subscriptions and
typing timers, while closing a connection of a user who still holds another
one triggers none. (For a connection authenticated only by an in-band
`auth` message the close listener sees null locals and triggers nothing.) -/
theorem c7_last_connection_offline (sys : Sys) (uid : String) (uname : Option String)
    (c : Nat) (l : List Nat) (u : User)
    (hl : getA sys.ws.clients uid = some l)
    (hc : c ∈ l)
    (hu : Users.findById sys.users uid = some u)
    (hsubs : ∀ p ∈ sys.ws.roomSubscriptions, p.2.Nodup)
    (htimers : ∀ lt ∈ sys.ws.liveTimers, lt.userId = uid →
        ∃ p ∈ sys.ws.typingUsers, getA p.2 uid = some lt.id) :
    countOffline (closeStep sys ⟨some uid, uname⟩ c).2 =
      (if l.length = 1 then 1 else 0) ∧
    (l.length = 1 →
      (∀ p ∈ (closeStep sys ⟨some uid, uname⟩ c).1.ws.roomSubscriptions, uid ∉ p.2) ∧
      (∀ lt ∈ (closeStep sys ⟨some uid, uname⟩ c).1.ws.liveTimers, lt.userId ≠ uid)) := by
  have hclose : closeStep sys ⟨some uid, uname⟩ c =
      handleDisconnect { sys with ws := unregisterClient sys.ws uid c } uid := rfl
  by_cases h1 : l.length = 1
  · obtain ⟨a, rfl⟩ := List.length_eq_one.mp h1
    obtain rfl := List.mem_singleton.mp hc
    have hnone : getA (unregisterClient sys.ws uid c).clients uid = none := by
      simp only [unregisterClient, hl, List.erase_cons_head, List.isEmpty_nil, if_true]
      exact getA_eraseA_self sys.ws.clients uid
    have hfields := unregisterClient_fields sys.ws uid c
    have hstep := handleDisconnect_last { sys with ws := unregisterClient sys.ws uid c }
      uid hnone
    rw [hclose, hstep]
    simp only []
    have hu1 : Users.findById
        ({ sys with ws := unregisterClient sys.ws uid c } : Sys).users uid = some u := hu
    constructor
    · rw [countOffline_append]
      have hbp : countOffline (broadcastPresence
          { sys with ws := unregisterClient sys.ws uid c } uid "offline") = 1 := by
        unfold broadcastPresence
        rw [hu1]
        rfl
      rw [hbp, (clearTyping_fold_pres uid _ _).1]
      simp [countOffline, h1]
    · intro _
      constructor
      · intro p hp
        rw [(clearTyping_fold_pres uid _ _).2] at hp
        have hsubs1 : (({ sys with ws := unregisterClient sys.ws uid c } : Sys).ws :
            WSState).roomSubscriptions = sys.ws.roomSubscriptions := hfields.1
        rw [hsubs1] at hp
        obtain ⟨q, hq, rfl⟩ := List.mem_map.mp hp
        exact (hsubs q hq).not_mem_erase
      · intro lt hmem
        apply clearTyping_clears uid _ _ ?hinv lt hmem
        intro lt' hmem' hequ'
        rw [show (({ sys with ws := unregisterClient sys.ws uid c } : Sys).ws :
            WSState).liveTimers = sys.ws.liveTimers from hfields.2.2] at hmem'
        obtain ⟨p, hp, hgp⟩ := htimers lt' hmem' hequ'
        refine ⟨p, ?_, hgp⟩
        rw [show (({ sys with ws := unregisterClient sys.ws uid c } : Sys).ws :
            WSState).typingUsers = sys.ws.typingUsers from hfields.2.1]
        exact hp
  · have hpos : 0 < l.length := List.length_pos_of_mem hc
    have hsome : (getA (unregisterClient sys.ws uid c).clients uid).isSome = true := by
      simp only [unregisterClient, hl]
      cases herase : l.erase c with
      | nil =>
          have hle := List.length_erase_of_mem hc
          rw [herase] at hle
          simp at hle
          omega
      | cons x xs =>
          simp [getA_setA_self]
    rw [hclose, handleDisconnect_conn _ _ hsome]
    exact ⟨by simp [countOffline, h1], fun h => absurd h h1⟩

/-- Witness for the C7 amended theorem: closing alice's only
handshake-authenticated connection produces exactly one presence-offline
broadcast. -/
theorem c7_last_connection_offline_witness :
    countOffline (closeStep sysOneConn ⟨some "user1", some "alice"⟩ 0).2 = 1 := by
  have h := (c7_last_connection_offline sysOneConn "user1" (some "alice") 0 [0]
      ⟨"user1", "alice", "admin", "online"⟩ (by decide) (by decide) (by decide)
      (by decide) (by intro lt hmem; exact absurd hmem (List.not_mem_nil lt))).1
  simpa using h

theorem map_id_singleton {l : List LiveTimer} {t : Nat}
    (h : l.map LiveTimer.id = [t]) : ∃ x, l = [x] ∧ x.id = t := by
  cases l with
  | nil => cases h
  | cons x xs =>
      cases xs with
      | nil =>
          simp only [List.map_cons, List.map_nil] at h
          exact ⟨x, rfl, by injection h⟩
      | cons y ys => simp at h

theorem filter_eq_nil_of {α : Type} (p : α → Bool) (l : List α)
    (h : ∀ a ∈ l, p a = false) : l.filter p = [] := by
  induction l with
  | nil => rfl
  | cons x xs ih =>
      have hx := h x (List.mem_cons_self x xs)
      simp only [List.filter_cons, hx, Bool.false_eq_true, if_false]
      exact ih fun a ha => h a (List.mem_cons_of_mem x ha)

theorem find?_append_none {α : Type} (p : α → Bool) (l1 l2 : List α)
    (h : ∀ a ∈ l1, p a = false) : (l1 ++ l2).find? p = l2.find? p := by
  induction l1 with
  | nil => rfl
  | cons x xs ih =>
      rw [List.cons_append, List.find?_cons_of_neg]
      · exact ih fun a ha => h a (List.mem_cons_of_mem x ha)
      · simp [h x (List.mem_cons_self x xs)]

theorem broadcastToRoom_none (st : WSState) (rid : String) (e : Event)
    (ex : Option String) (h : getA st.roomSubscriptions rid = none) :
    broadcastToRoom st rid e ex = [] := by
  unfold broadcastToRoom
  rw [h]

theorem broadcastToRoom_some (st : WSState) (rid : String) (e : Event)
    (ex : Option String) (mem : List String)
    (h : getA st.roomSubscriptions rid = some mem) :
    broadcastToRoom st rid e ex = [.toRoom rid (mem.filter (fun u => ex ≠ some u)) e] := by
  unfold broadcastToRoom
  rw [h]

theorem mem_filter_exclude (mem : List String) (uid x : String) :
    x ∈ mem.filter (fun u => some uid ≠ some u) ↔ x ∈ mem ∧ x ≠ uid := by
  rw [List.mem_filter]
  constructor
  · rintro ⟨h1, h2⟩
    exact ⟨h1, fun hx => (of_decide_eq_true h2) (by rw [hx])⟩
  · rintro ⟨h1, h2⟩
    exact ⟨h1, decide_eq_true fun h => h2 (Option.some.inj h).symm⟩

theorem not_mem_filter_exclude (mem : List String) (uid : String) :
    uid ∉ mem.filter (fun u => some uid ≠ some u) := by
  intro h
  exact (of_decide_eq_true (List.mem_filter.mp h).2) rfl

theorem mem_filter_noexclude (mem : List String) (x : String) :
    x ∈ mem.filter (fun u => (none : Option String) ≠ some u) ↔ x ∈ mem := by
  rw [List.mem_filter]
  constructor
  · exact fun h => h.1
  · intro h
    exact ⟨h, decide_eq_true fun hx => Option.noConfusion hx⟩

/-- C8: restart semantics of the typing debounce. With a consistent key
state (the pending timeouts for (room, user) are exactly the recorded one)
and fresh handles: on `isTyping = true` any recorded timeout is cancelled,
exactly one fresh timeout (with the configured delay) is pending and
recorded for the key, and `typing_start` goes to the room's subscribers
excluding the typer; if that timeout fires unrefreshed, `typing_stop` goes
to the whole room and the key is cleared; on `isTyping = false` any pending
timeout is cancelled and `typing_stop` goes out immediately, excluding the
typer. -/
theorem c8_typing_debounce (cfg : Nat) (st : WSState) (uid rid : String)
    (uname : Option String)
    (hkey : keyTimers st rid uid =
      (match typingEntry st rid uid with | some t => [t] | none => []))
    (hfresh : ∀ lt ∈ st.liveTimers, lt.id < st.nextTimer) :
    (∀ t', typingEntry st rid uid = some t' →
      ∀ lt ∈ (handleTyping cfg st uid uname rid true).1.liveTimers, lt.id ≠ t') ∧
    keyTimers (handleTyping cfg st uid uname rid true).1 rid uid = [st.nextTimer] ∧
    typingEntry (handleTyping cfg st uid uname rid true).1 rid uid = some st.nextTimer ∧
    (⟨st.nextTimer, rid, uid, uname, cfg⟩ : LiveTimer) ∈
      (handleTyping cfg st uid uname rid true).1.liveTimers ∧
    ((getA st.roomSubscriptions rid = none →
        (handleTyping cfg st uid uname rid true).2 = []) ∧
     (∀ mem, getA st.roomSubscriptions rid = some mem →
        ∃ recips, (handleTyping cfg st uid uname rid true).2 =
            [.toRoom rid recips { type := "typing_start", userId := some uid,
                                  username := uname, roomId := some rid }] ∧
          uid ∉ recips ∧ ∀ x, x ∈ recips ↔ x ∈ mem ∧ x ≠ uid)) ∧
    (keyTimers (fireTimer (handleTyping cfg st uid uname rid true).1
        st.nextTimer).1 rid uid = [] ∧
     typingEntry (fireTimer (handleTyping cfg st uid uname rid true).1
        st.nextTimer).1 rid uid = none ∧
     (getA st.roomSubscriptions rid = none →
        (fireTimer (handleTyping cfg st uid uname rid true).1 st.nextTimer).2 = []) ∧
     (∀ mem, getA st.roomSubscriptions rid = some mem →
        ∃ recips, (fireTimer (handleTyping cfg st uid uname rid true).1
            st.nextTimer).2 =
            [.toRoom rid recips { type := "typing_stop", userId := some uid,
                                  username := uname, roomId := some rid }] ∧
          ∀ x, x ∈ recips ↔ x ∈ mem)) ∧
    (keyTimers (handleTyping cfg st uid uname rid false).1 rid uid = [] ∧
     typingEntry (handleTyping cfg st uid uname rid false).1 rid uid = none ∧
     (getA st.roomSubscriptions rid = none →
        (handleTyping cfg st uid uname rid false).2 = []) ∧
     (∀ mem, getA st.roomSubscriptions rid = some mem →
        ∃ recips, (handleTyping cfg st uid uname rid false).2 =
            [.toRoom rid recips { type := "typing_stop", userId := some uid,
                                  username := uname, roomId := some rid }] ∧
          uid ∉ recips ∧ ∀ x, x ∈ recips ↔ x ∈ mem ∧ x ≠ uid)) := by
  have hkey' : (st.liveTimers.filter
      (fun lt : LiveTimer => lt.roomId = rid && lt.userId = uid)).map LiveTimer.id =
      (match getA ((getA st.typingUsers rid).getD []) uid with
        | some t => [t] | none => []) := hkey
  cases hentry : getA ((getA st.typingUsers rid).getD []) uid with
  | some t =>
      rw [hentry] at hkey'
      obtain ⟨x0, hfeq, hx0⟩ := map_id_singleton hkey'
      have hx0mem : x0 ∈ st.liveTimers := by
        have : x0 ∈ st.liveTimers.filter
            (fun lt : LiveTimer => lt.roomId = rid && lt.userId = uid) := by
          rw [hfeq]; exact List.mem_singleton_self x0
        exact List.mem_of_mem_filter this
      have htlt : t < st.nextTimer := hx0 ▸ hfresh x0 hx0mem
      -- the state after handleTyping … true
      have htrue : handleTyping cfg st uid uname rid true =
          ({ st with
              typingUsers := setA st.typingUsers rid
                (setA (eraseA ((getA st.typingUsers rid).getD []) uid) uid st.nextTimer),
              liveTimers := (st.liveTimers.filter (fun lt : LiveTimer => lt.id ≠ t)) ++
                [⟨st.nextTimer, rid, uid, uname, cfg⟩],
              nextTimer := st.nextTimer + 1 },
            broadcastToRoom
              { st with
                typingUsers := setA st.typingUsers rid
                  (setA (eraseA ((getA st.typingUsers rid).getD []) uid) uid st.nextTimer),
                liveTimers := (st.liveTimers.filter (fun lt : LiveTimer => lt.id ≠ t)) ++
                  [⟨st.nextTimer, rid, uid, uname, cfg⟩],
                nextTimer := st.nextTimer + 1 }
              rid
              { type := "typing_start", userId := some uid, username := uname,
                roomId := some rid }
              (some uid)) := by
        simp only [handleTyping, hentry]
        rw [if_pos trivial]
      have hfalse : handleTyping cfg st uid uname rid false =
          ({ st with
              typingUsers := setA st.typingUsers rid
                (eraseA ((getA st.typingUsers rid).getD []) uid),
              liveTimers := st.liveTimers.filter (fun lt : LiveTimer => lt.id ≠ t) },
            broadcastToRoom
              { st with
                typingUsers := setA st.typingUsers rid
                  (eraseA ((getA st.typingUsers rid).getD []) uid),
                liveTimers := st.liveTimers.filter (fun lt : LiveTimer => lt.id ≠ t) }
              rid
              { type := "typing_stop", userId := some uid, username := uname,
                roomId := some rid }
              (some uid)) := by
        simp only [handleTyping, hentry]
        rfl
      have hcl2key : ∀ x ∈ st.liveTimers.filter (fun lt : LiveTimer => lt.id ≠ t),
          ((x.roomId = rid && x.userId = uid : Bool)) = false := by
        intro x hx
        cases hkx : (x.roomId = rid && x.userId = uid : Bool) with
        | false => rfl
        | true =>
            exfalso
            have hxk : x ∈ st.liveTimers.filter
                (fun lt : LiveTimer => lt.roomId = rid && lt.userId = uid) :=
              List.mem_filter.mpr ⟨List.mem_of_mem_filter hx, hkx⟩
            rw [hfeq] at hxk
            obtain rfl := List.mem_singleton.mp hxk
            have hne : x.id ≠ t := by simpa using (List.mem_filter.mp hx).2
            exact hne hx0
      refine ⟨?_, ?_, ?_, ?_, ⟨?_, ?_⟩, ?_, ?_⟩
      · -- any recorded timeout is cancelled
        intro t' ht' lt hmem
        unfold typingEntry at ht'
        rw [hentry] at ht'
        injection ht' with ht''
        subst ht''
        rw [htrue] at hmem
        rcases List.mem_append.mp hmem with h1 | h2
        · exact of_decide_eq_true (List.mem_filter.mp h1).2
        · obtain rfl := List.mem_singleton.mp h2
          show st.nextTimer ≠ t
          omega
      · -- exactly one pending timeout for the key: the fresh one
        rw [htrue]
        simp only [keyTimers]
        rw [List.filter_append, filter_eq_nil_of _ _ hcl2key]
        simp
      · -- the fresh handle is recorded for the key
        rw [htrue]
        simp only [typingEntry, getA_setA_self, Option.getD_some]
      · rw [htrue]
        exact List.mem_append_right _ (List.mem_singleton_self _)
      · intro h
        rw [htrue]
        exact broadcastToRoom_none _ rid _ (some uid) h
      · intro mem h
        rw [htrue]
        exact ⟨mem.filter (fun u => some uid ≠ some u),
          broadcastToRoom_some _ rid _ (some uid) mem h,
          not_mem_filter_exclude mem uid, mem_filter_exclude mem uid⟩
      · -- the unrefreshed timeout fires: key cleared, typing_stop to the room
        have hnotid : ∀ a ∈ st.liveTimers.filter (fun lt : LiveTimer => lt.id ≠ t),
            ((fun lt : LiveTimer => lt.id = st.nextTimer) a : Bool) = false := by
          intro a ha
          have := hfresh a (List.mem_of_mem_filter ha)
          simp only [decide_eq_false_iff_not]
          omega
        have hfind : ((st.liveTimers.filter (fun lt : LiveTimer => lt.id ≠ t)) ++
            [(⟨st.nextTimer, rid, uid, uname, cfg⟩ : LiveTimer)]).find?
              (fun lt : LiveTimer => lt.id = st.nextTimer) =
            some ⟨st.nextTimer, rid, uid, uname, cfg⟩ := by
          rw [find?_append_none _ _ _ hnotid]
          exact List.find?_cons_of_pos _ (by simp)
        rw [htrue]
        simp only [fireTimer, hfind]
        refine ⟨?_, ?_, ?_, ?_⟩
        · simp only [keyTimers]
          rw [filter_eq_nil_of]
          · rfl
          · intro x hx
            obtain ⟨hxm, hxid⟩ := List.mem_filter.mp hx
            rcases List.mem_append.mp hxm with h1 | h2
            · exact hcl2key x h1
            · obtain rfl := List.mem_singleton.mp h2
              exact absurd rfl (of_decide_eq_true hxid)
        · simp only [typingEntry, getA_setA_self, Option.getD_some, getA_eraseA_self]
        · intro h
          exact broadcastToRoom_none _ rid _ none h
        · intro mem h
          exact ⟨mem.filter (fun u => (none : Option String) ≠ some u),
            broadcastToRoom_some _ rid _ none mem h, mem_filter_noexclude mem⟩
      · -- isTyping = false: cancel and immediate stop excluding the typer
        rw [hfalse]
        refine ⟨?_, ?_, ?_, ?_⟩
        · simp only [keyTimers]
          rw [filter_eq_nil_of _ _ hcl2key]
          rfl
        · simp only [typingEntry, getA_setA_self, Option.getD_some, getA_eraseA_self]
        · intro h
          exact broadcastToRoom_none _ rid _ (some uid) h
        · intro mem h
          exact ⟨mem.filter (fun u => some uid ≠ some u),
            broadcastToRoom_some _ rid _ (some uid) mem h,
            not_mem_filter_exclude mem uid, mem_filter_exclude mem uid⟩
  | none =>
      rw [hentry] at hkey'
      have hfnil : st.liveTimers.filter
          (fun lt : LiveTimer => lt.roomId = rid && lt.userId = uid) = [] := by
        cases hf : st.liveTimers.filter
            (fun lt : LiveTimer => lt.roomId = rid && lt.userId = uid) with
        | nil => rfl
        | cons a l =>
            rw [hf] at hkey'
            simp at hkey'
      have hclkey : ∀ x ∈ st.liveTimers,
          ((x.roomId = rid && x.userId = uid : Bool)) = false := by
        intro x hx
        cases hkx : (x.roomId = rid && x.userId = uid : Bool) with
        | false => rfl
        | true =>
            exfalso
            have hxk : x ∈ st.liveTimers.filter
                (fun lt : LiveTimer => lt.roomId = rid && lt.userId = uid) :=
              List.mem_filter.mpr ⟨hx, hkx⟩
            rw [hfnil] at hxk
            exact absurd hxk (List.not_mem_nil x)
      have htrue : handleTyping cfg st uid uname rid true =
          ({ st with
              typingUsers := setA st.typingUsers rid
                (setA ((getA st.typingUsers rid).getD []) uid st.nextTimer),
              liveTimers := st.liveTimers ++
                [⟨st.nextTimer, rid, uid, uname, cfg⟩],
              nextTimer := st.nextTimer + 1 },
            broadcastToRoom
              { st with
                typingUsers := setA st.typingUsers rid
                  (setA ((getA st.typingUsers rid).getD []) uid st.nextTimer),
                liveTimers := st.liveTimers ++
                  [⟨st.nextTimer, rid, uid, uname, cfg⟩],
                nextTimer := st.nextTimer + 1 }
              rid
              { type := "typing_start", userId := some uid, username := uname,
                roomId := some rid }
              (some uid)) := by
        simp only [handleTyping, hentry]
        rw [if_pos trivial]
      have hfalse : handleTyping cfg st uid uname rid false =
          ({ st with
              typingUsers := setA st.typingUsers rid ((getA st.typingUsers rid).getD []),
              liveTimers := st.liveTimers },
            broadcastToRoom
              { st with
                typingUsers := setA st.typingUsers rid ((getA st.typingUsers rid).getD []),
                liveTimers := st.liveTimers }
              rid
              { type := "typing_stop", userId := some uid, username := uname,
                roomId := some rid }
              (some uid)) := by
        simp only [handleTyping, hentry]
        rfl
      refine ⟨?_, ?_, ?_, ?_, ⟨?_, ?_⟩, ?_, ?_⟩
      · intro t' ht' lt hmem
        unfold typingEntry at ht'
        rw [hentry] at ht'
        cases ht'
      · rw [htrue]
        simp only [keyTimers]
        rw [List.filter_append, hfnil]
        simp
      · rw [htrue]
        simp only [typingEntry, getA_setA_self, Option.getD_some]
      · rw [htrue]
        exact List.mem_append_right _ (List.mem_singleton_self _)
      · intro h
        rw [htrue]
        exact broadcastToRoom_none _ rid _ (some uid) h
      · intro mem h
        rw [htrue]
        exact ⟨mem.filter (fun u => some uid ≠ some u),
          broadcastToRoom_some _ rid _ (some uid) mem h,
          not_mem_filter_exclude mem uid, mem_filter_exclude mem uid⟩
      · have hnotid : ∀ a ∈ st.liveTimers,
            ((fun lt : LiveTimer => lt.id = st.nextTimer) a : Bool) = false := by
          intro a ha
          have := hfresh a ha
          simp only [decide_eq_false_iff_not]
          omega
        have hfind : (st.liveTimers ++
            [(⟨st.nextTimer, rid, uid, uname, cfg⟩ : LiveTimer)]).find?
              (fun lt : LiveTimer => lt.id = st.nextTimer) =
            some ⟨st.nextTimer, rid, uid, uname, cfg⟩ := by
          rw [find?_append_none _ _ _ hnotid]
          exact List.find?_cons_of_pos _ (by simp)
        rw [htrue]
        simp only [fireTimer, hfind]
        refine ⟨?_, ?_, ?_, ?_⟩
        · simp only [keyTimers]
          rw [filter_eq_nil_of]
          · rfl
          · intro x hx
            obtain ⟨hxm, hxid⟩ := List.mem_filter.mp hx
            rcases List.mem_append.mp hxm with h1 | h2
            · exact hclkey x h1
            · obtain rfl := List.mem_singleton.mp h2
              exact absurd rfl (of_decide_eq_true hxid)
        · simp only [typingEntry, getA_setA_self, Option.getD_some, getA_eraseA_self]
        · intro h
          exact broadcastToRoom_none _ rid _ none h
        · intro mem h
          exact ⟨mem.filter (fun u => (none : Option String) ≠ some u),
            broadcastToRoom_some _ rid _ none mem h, mem_filter_noexclude mem⟩
      · rw [hfalse]
        refine ⟨?_, ?_, ?_, ?_⟩
        · simp only [keyTimers]
          rw [hfnil]
          rfl
        · simp only [typingEntry, getA_setA_self, Option.getD_some, hentry]
        · intro h
          exact broadcastToRoom_none _ rid _ (some uid) h
        · intro mem h
          exact ⟨mem.filter (fun u => some uid ≠ some u),
            broadcastToRoom_some _ rid _ (some uid) mem h,
            not_mem_filter_exclude mem uid, mem_filter_exclude mem uid⟩

/-- Witness for C8: alice retypes in general while her timeout 0 is
pending; afterwards exactly the fresh timeout 1 is pending and recorded. -/
theorem c8_typing_debounce_witness :
    keyTimers (handleTyping 3000 stTyping "user1" (some "alice") "general" true).1
      "general" "user1" = [1] ∧
    typingEntry (handleTyping 3000 stTyping "user1" (some "alice") "general" true).1
      "general" "user1" = some 1 :=
  ⟨(c8_typing_debounce 3000 stTyping "user1" "general" (some "alice") (by decide)
      (by decide)).2.1,
   (c8_typing_debounce 3000 stTyping "user1" "general" (some "alice") (by decide)
      (by decide)).2.2.1⟩

end Chat
